import Mathlib

/-!
# faasd provider handlers: replica read, list and scale

A shallow embedding of `pkg/provider/handlers` (`replica_helper.go`, `read.go`,
`replicas.go`, `scale.go`).  Calls that leave the package (the container engine,
the address resolver, the HTTP client, the JSON decoder) are inputs of the model:
an `Env` value says what each of them returns.  A handler run yields the state of
the response writer, the ordered list of the external calls it made and whether
it stopped on a nil-pointer dereference.
-/

namespace Faasd

/-! ## net/url and net/http values -/

/-- The fields of `url.URL` that the handlers read or set. -/
structure URL where
  Scheme : String
  Host : String
  Path : String
  RawQuery : String
deriving DecidableEq, Repr

/-- The text after the last `:` of a host, when the host has a `:`
(`strings.LastIndexByte(host, ':')` followed by `host[colon+1:]`). -/
def afterLastColon : List Char → Option (List Char)
  | [] => none
  | c :: cs =>
    match afterLastColon cs with
    | some s => some s
    | none => if c = ':' then some cs else none

/-- Go `URL.Port()`: the digits after the last colon of `Host`; empty when there is
no colon or when something other than digits follows it (`validOptionalPort`). -/
def URL.Port (u : URL) : String :=
  match afterLastColon u.Host.data with
  | some s => if s.all Char.isDigit then String.mk s else ""
  | none => ""

/-- Go `http.Header`: a map from canonical header names to their values. -/
abbrev Header := String → Option (List String)

/-- The empty map, `make(http.Header)`. -/
def Header.empty : Header := fun _ => none

/-- Go `h.Get(key)`: the first value stored under the key, or the empty string. -/
def Header.Get (h : Header) (key : String) : String :=
  match h key with
  | some (v :: _) => v
  | _ => ""

/-- The map assignment `h[key] = vs`. -/
def Header.assign (h : Header) (key : String) (vs : List String) : Header :=
  fun k => if k = key then some vs else h k

/-- The fields of `http.Request` that the handlers read or set.  A request that
the server hands to a handler has a method that is not empty and header names in
canonical form. -/
structure Request where
  Method : String
  URL : URL
  Header : Header
  Host : String
  RemoteAddr : String
  Body : Option String

def watchdogPort : String := "8080"

def defaultContentType : String := "text/plain"

/-- Whether a string is a scheme name for `url.Parse`: a letter followed by
letters, digits, `+`, `-` or `.`. -/
def validScheme (s : String) : Bool :=
  match s.data with
  | [] => false
  | c :: cs =>
    c.isAlpha && cs.all (fun d => d.isAlpha || d.isDigit || d == '+' || d == '-' || d == '.')

/-- A scheme that is empty or a scheme name. -/
def regularScheme (s : String) : Bool :=
  s.data.isEmpty || validScheme s

/-- The scheme as `url.Parse` stores it: in lower case (`strings.ToLower`). -/
def lowerScheme (s : String) : String :=
  String.mk (s.data.map Char.toLower)

/-- The part of a rendered query that `url.Parse` keeps as `RawQuery`: the text
before the first `#`; the rest is the fragment. -/
def beforeFragment (s : String) : String :=
  String.mk (s.data.takeWhile (fun c => c != '#'))

/-- The path as `URL.String()` renders it after a host: a `/` is put in front of
a path that is not empty and does not start with one. -/
def rootedPath (p : String) : String :=
  match p.data with
  | [] => p
  | c :: _ => if c = '/' then p else "/" ++ p

/-- Go `removeEmptyPort(host)`: a trailing `:` is dropped. -/
def removeEmptyPort (host : String) : String :=
  if host.data.getLast? = some ':' then String.mk host.data.dropLast else host

/-- The result of `url.Parse(u.String())` when it succeeds, for a URL with a host
and a regular scheme: the scheme is lower-cased, the path is rendered after the
host, and the query ends where a fragment starts.  Path and host are escaped by
the renderer and unescaped by the parser, which gives them back. -/
def URL.reparsed (u : URL) : URL :=
  { Scheme := lowerScheme u.Scheme, Host := u.Host, Path := rootedPath u.Path,
    RawQuery := beforeFragment u.RawQuery }

/-- What the model takes from `net/http` and `net/url` as given: `accepts` says
whether `http.NewRequest` builds a request for a method and a URL with a host
and a regular scheme (valid method, host and port, no control character), and
`irregular` is the method and the parsed URL it returns for any other URL value,
whose rendered text parses into other components. -/
structure NetHTTP where
  accepts : String → URL → Bool
  irregular : String → URL → Except String (String × URL)

/-- Go `http.NewRequest(method, u.String(), nil)`: an empty method is read as
`GET`, the rendered URL is parsed again, an empty port is removed from the host,
and the request starts with an empty header map and no body. -/
def NewRequest (lib : NetHTTP) (method : String) (u : URL) : Except String Request :=
  let parsed : Except String (String × URL) :=
    if u.Host ≠ "" ∧ regularScheme u.Scheme = true then
      if lib.accepts method u then .ok (if method = "" then "GET" else method, u.reparsed)
      else .error "net/http: invalid request"
    else lib.irregular method u
  match parsed with
  | .error err => .error err
  | .ok (m, url) =>
    let host := removeEmptyPort url.Host
    .ok { Method := m, URL := { url with Host := host }, Header := Header.empty, Host := host,
          RemoteAddr := "", Body := none }

/-- Function `copyHeaders` clones the header values from the source into the destination:
every key of the source is assigned in the destination. -/
def copyHeaders (destination source : Header) : Header :=
  fun k =>
    match source k with
    | some v => some v
    | none => destination k

/-- Function `buildProxyRequest(originalReq, baseURL)`: the upstream request for an
inbound request and the address of a supervisor endpoint. -/
def buildProxyRequest (lib : NetHTTP) (originalReq : Request)
    (baseURL : URL) : Except String Request :=
  let host := if baseURL.Port = "" then baseURL.Host ++ ":" ++ watchdogPort else baseURL.Host
  let url : URL :=
    { Scheme := baseURL.Scheme, Host := host, RawQuery := originalReq.URL.RawQuery,
      Path := baseURL.Path }
  match NewRequest lib originalReq.Method url with
  | .error err => .error err
  | .ok upstreamReq =>
    let h0 := copyHeaders upstreamReq.Header originalReq.Header
    let h1 :=
      if originalReq.Host.length > 0 ∧ h0.Get "X-Forwarded-Host" = "" then
        h0.assign "X-Forwarded-Host" [originalReq.Host]
      else h0
    let h2 :=
      if h1.Get "X-Forwarded-For" = "" then
        h1.assign "X-Forwarded-For" [originalReq.RemoteAddr]
      else h1
    let body :=
      match originalReq.Body with
      | some b => some b
      | none => upstreamReq.Body
    .ok { upstreamReq with Header := h2, Body := body }

/-- Go `url.Parse(u.String() + suffix)` for a suffix such as `/scale-reader`: the
suffix is appended to the rendered address, so it extends the path, or the query
when the address has one. -/
def URL.withSuffix (u : URL) (suffix : String) : URL :=
  if u.RawQuery = "" then { u with Path := u.Path ++ suffix }
  else { u with RawQuery := u.RawQuery ++ suffix }

/-- The host that `buildProxyRequest` gives to the upstream URL. -/
def proxyHost (baseURL : URL) : String :=
  if baseURL.Port = "" then baseURL.Host ++ ":" ++ watchdogPort else baseURL.Host

/-! ## Records -/

/-- A `float64`, carried as its 64 bits; the handlers copy it and never compute with it. -/
structure float64 where
  bits : Nat
deriving DecidableEq, Repr

/-- Record `replicaFuncStatus`: what the supervisor reports on `/scale-reader`. -/
structure replicaFuncStatus where
  InvocationCount : float64
  Replicas : Nat
  AvailableReplicas : Nat
deriving DecidableEq, Repr

/-- The body of a supervisor response, by what
`json.Unmarshal(bytesIn, &function)` does with it when `function` is a nil
`*replicaFuncStatus`: an error for text that is not JSON or not an object of the
right shape, nothing at all for the literal `null`, and a freshly allocated
record for an object (all fields zero for `{}`). -/
inductive Body where
  | malformed (err : String)
  | null
  | object (v : replicaFuncStatus)
deriving DecidableEq, Repr

/-- The fields of `http.Response` that the handlers read. -/
structure Response where
  StatusCode : Int
  Body : Option Body
deriving DecidableEq, Repr

/-- Record `types.ScaleServiceRequest`. -/
structure ScaleServiceRequest where
  ServiceName : String
  Replicas : Nat
deriving DecidableEq, Repr

/-- The fields of the provider's `Function` record that the handlers read. -/
structure Function where
  name : String
  namespace_ : String
  image : String
  labels : List (String × String)
  annotations : List (String × String)
  secrets : List String
  envVars : List (String × String)
  envProcess : String
  memoryLimit : Int
  createdAt : Int
deriving DecidableEq, Repr

/-- Record `types.FunctionResources`. -/
structure FunctionResources where
  Memory : String
deriving DecidableEq, Repr

/-- The fields of `types.FunctionStatus` that the handlers set; `Limits` is a
pointer that is left out of the JSON object when nil. -/
structure FunctionStatus where
  Name : String
  Image : String
  Replicas : Nat
  AvailableReplicas : Nat
  InvocationCount : float64
  Namespace : String
  Labels : Option (List (String × String))
  Annotations : Option (List (String × String))
  Secrets : List String
  EnvVars : List (String × String)
  EnvProcess : String
  CreatedAt : Int
  Limits : Option FunctionResources
deriving DecidableEq, Repr

/-! ## resource.Quantity in canonical form -/

/-- Go `removeInt64Factors` on a non-negative value: divide by `base` while the
value is at least `base` and a multiple of it, counting the divisions. -/
def removeFactors (base : Nat) : Nat → Nat → Nat × Nat
  | 0, result => (result, 0)
  | fuel + 1, result =>
    if result ≥ base ∧ result % base = 0 then
      let p := removeFactors base fuel (result / base)
      (p.1, p.2 + 1)
    else (result, 0)

/-- Suffixes of the binary-SI format, by power of 1024. -/
def binarySuffix : Nat → String
  | 0 => ""
  | 1 => "Ki"
  | 2 => "Mi"
  | 3 => "Gi"
  | 4 => "Ti"
  | 5 => "Pi"
  | _ => "Ei"

/-- Suffixes of the decimal-SI format, by power of ten (a multiple of three). -/
def decimalSuffix : Nat → String
  | 0 => ""
  | 3 => "k"
  | 6 => "M"
  | 9 => "G"
  | 12 => "T"
  | 15 => "P"
  | _ => "E"

/-- Go `resource.NewQuantity(n, resource.BinarySI).String()` for an `int64` n above
the least one (whose negation wraps in the library): zero is `0`; a value
strictly between -1024 and 1024 is written in decimal SI; any other value is
written as a multiple of the largest power of 1024 dividing it. -/
def quantityString (n : Int) : String :=
  if n = 0 then "0"
  else
    let sign := if n < 0 then "-" else ""
    if -1024 < n ∧ n < 1024 then
      let p := removeFactors 10 64 n.natAbs
      let q : Nat × Nat :=
        if p.2 % 3 = 1 then (p.1 * 10, p.2 - 1)
        else if p.2 % 3 = 2 then (p.1 * 100, p.2 - 2)
        else p
      sign ++ Nat.repr q.1 ++ decimalSuffix q.2
    else
      let p := removeFactors 1024 64 n.natAbs
      sign ++ Nat.repr p.1 ++ binarySuffix p.2

/-! ## The response writer -/

/-- What a handler passes to `w.Write`: a line of text, or the JSON encoding of a
list of function records or of one function record. -/
inductive Chunk where
  | text (s : String)
  | functions (res : List FunctionStatus)
  | function (found : FunctionStatus)
deriving DecidableEq, Repr

/-- An `http.ResponseWriter`: the header map, the status code of the first
`WriteHeader` (later ones are ignored by the server) and what was written. -/
structure ResponseWriter where
  header : List (String × String)
  status : Option Int
  body : List Chunk
deriving DecidableEq, Repr

def ResponseWriter.new : ResponseWriter := { header := [], status := none, body := [] }

/-- Go `w.Header().Set(key, value)`. -/
def ResponseWriter.Set (w : ResponseWriter) (key value : String) : ResponseWriter :=
  { w with header := (key, value) :: w.header.filter (fun kv => kv.1 ≠ key) }

/-- Go `w.WriteHeader(code)`: only the first call fixes the status. -/
def ResponseWriter.WriteHeader (w : ResponseWriter) (code : Int) : ResponseWriter :=
  match w.status with
  | some _ => w
  | none => { w with status := some code }

/-- Go `w.Write(b)`: writes the header with 200 first when none was written. -/
def ResponseWriter.Write (w : ResponseWriter) (c : Chunk) : ResponseWriter :=
  let w1 := w.WriteHeader 200
  { w1 with body := w1.body ++ [c] }

/-- Go `http.Error(w, msg, code)`: plain-text headers, the status code, then the
message and a newline. -/
def ResponseWriter.Error (w : ResponseWriter) (msg : String) (code : Int) : ResponseWriter :=
  (((w.Set "Content-Type" "text/plain; charset=utf-8").Set
      "X-Content-Type-Options" "nosniff").WriteHeader code).Write (.text (msg ++ "\n"))

/-- Helper `httputil.Errorf(w, statusCode, msg, args...)` of faas-provider, which is
`http.Error(w, fmt.Sprintf(msg, args...), statusCode)`; the argument here is the
formatted message. -/
def Errorf (w : ResponseWriter) (statusCode : Int) (formatted : String) : ResponseWriter :=
  w.Error formatted statusCode

def StatusOK : Int := 200
def StatusBadRequest : Int := 400
def StatusNotFound : Int := 404
def StatusInternalServerError : Int := 500
def StatusServiceUnavailable : Int := 503

/-! ## External calls -/

/-- Operations on a container task that the engine offers. -/
inductive TaskAction where
  | Pause
  | Resume
  | Delete
  | Create
deriving DecidableEq, Repr

/-- A call that leaves the handler, in the order the handler makes them. -/
inductive Event where
  | validNamespace (ns : String)
  | ListFunctions (ns : String)
  | GetFunction (name ns : String)
  | Resolve (name : String)
  | Do (req : Request)
  | Task (a : TaskAction)

/-- What the collaborators of the handlers return.  `requestNamespace` is
`getRequestNamespace(readNamespaceFromQuery(r))`, `muxVarsName` is
`mux.Vars(r)["name"]`, `Unmarshal` is `json.Unmarshal` into a
`types.ScaleServiceRequest`, `lib` is what `http.NewRequest` is taken to do and
`Do` is `proxyClient.Do`. -/
structure Env where
  requestNamespace : Request → String
  muxVarsName : Request → String
  Unmarshal : String → Except String ScaleServiceRequest
  validNamespace : String → Except String Bool
  ListFunctions : String → Except String (List (String × Function))
  GetFunction : String → String → Except String Function
  Resolve : String → Except String URL
  lib : NetHTTP
  Do : Request → Except String Response

/-- The state a handler leaves behind; `panicked` records a nil-pointer
dereference, after which the handler writes nothing more. -/
structure Run where
  w : ResponseWriter
  trace : List Event
  panicked : Bool

/-- The two results of `updateReplica` (a possibly nil pointer and a possibly nil
error) with the external calls it made. -/
structure ReplicaResult where
  function : Option replicaFuncStatus
  err : Option String
  calls : List Event

/-- Function `updateReplica(functionName, config, resolver, r)`: asks the supervisor
of a function for its replica record. -/
def updateReplica (env : Env) (functionName : String) (r : Request) : ReplicaResult :=
  match env.Resolve functionName with
  | .error resolveErr => ⟨none, some resolveErr, [.Resolve functionName]⟩
  | .ok tmpAddr =>
    let functionAddr := tmpAddr.withSuffix "/scale-reader"
    match buildProxyRequest env.lib r functionAddr with
    | .error err => ⟨none, some err, [.Resolve functionName]⟩
    | .ok proxyReq =>
      match env.Do proxyReq with
      | .error err => ⟨none, some err, [.Resolve functionName, .Do proxyReq]⟩
      | .ok response =>
        match response.Body with
        | none => ⟨none, none, [.Resolve functionName, .Do proxyReq]⟩
        | some (.malformed marshalErr) =>
          ⟨none, some marshalErr, [.Resolve functionName, .Do proxyReq]⟩
        | some .null => ⟨none, none, [.Resolve functionName, .Do proxyReq]⟩
        | some (.object v) => ⟨some v, none, [.Resolve functionName, .Do proxyReq]⟩

/-! ## The list handler (read.go) -/

/-- The body of the loop of `MakeReadHandler` for one function whose replica
record is at hand. -/
def listStatus (fn : Function) (replicaInfo : replicaFuncStatus) : FunctionStatus :=
  let memory := quantityString fn.memoryLimit
  let status : FunctionStatus :=
    { Name := fn.name, Image := fn.image, Replicas := replicaInfo.Replicas,
      AvailableReplicas := replicaInfo.AvailableReplicas,
      InvocationCount := replicaInfo.InvocationCount, Namespace := fn.namespace_,
      Labels := some fn.labels, Annotations := some fn.annotations,
      Secrets := fn.secrets, EnvVars := fn.envVars, EnvProcess := fn.envProcess,
      CreatedAt := fn.createdAt, Limits := none }
  let limit : FunctionResources := { Memory := memory }
  if limit.Memory ≠ "0" then { status with Limits := some limit } else status

/-- The loop `for name, fn := range fns` of `MakeReadHandler`, over the functions
in the order the map yields them.  The error of `updateReplica` is only logged;
reading a field of a nil `replicaInfo` stops the handler (result `none`). -/
def readLoop (env : Env) (r : Request) :
    List (String × Function) → List FunctionStatus → List Event →
      Option (List FunctionStatus) × List Event
  | [], res, tr => (some res, tr)
  | (name, fn) :: rest, res, tr =>
    let info := updateReplica env name r
    match info.function with
    | none => (none, tr ++ info.calls)
    | some replicaInfo =>
      readLoop env r rest (res ++ [listStatus fn replicaInfo]) (tr ++ info.calls)

/-- The handler returned by `MakeReadHandler`. -/
def MakeReadHandler (env : Env) (r : Request) : Run :=
  let w := ResponseWriter.new
  let lookupNamespace := env.requestNamespace r
  match env.validNamespace lookupNamespace with
  | .error err => ⟨w.Error err StatusBadRequest, [.validNamespace lookupNamespace], false⟩
  | .ok valid =>
    if !valid then
      ⟨w.Error "namespace not valid" StatusBadRequest, [.validNamespace lookupNamespace], false⟩
    else
      match env.ListFunctions lookupNamespace with
      | .error err =>
        ⟨w.Error err StatusBadRequest,
          [.validNamespace lookupNamespace, .ListFunctions lookupNamespace], false⟩
      | .ok fns =>
        match readLoop env r fns []
            [.validNamespace lookupNamespace, .ListFunctions lookupNamespace] with
        | (none, tr) => ⟨w, tr, true⟩
        | (some res, tr) =>
          ⟨((w.Set "Content-Type" "application/json").WriteHeader StatusOK).Write
              (.functions res), tr, false⟩

/-! ## The single-function read handler (replicas.go) -/

/-- The record that `MakeReplicaReaderHandler` builds. -/
def foundStatus (functionName : String) (f : Function) (replicaInfo : replicaFuncStatus) :
    FunctionStatus :=
  { Name := functionName, Image := f.image,
    AvailableReplicas := replicaInfo.AvailableReplicas, Replicas := replicaInfo.Replicas,
    InvocationCount := replicaInfo.InvocationCount, Namespace := f.namespace_,
    Labels := some f.labels, Annotations := some f.annotations, Secrets := f.secrets,
    EnvVars := f.envVars, EnvProcess := f.envProcess, CreatedAt := f.createdAt,
    Limits := none }

/-- The handler returned by `MakeReplicaReaderHandler`. -/
def MakeReplicaReaderHandler (env : Env) (r : Request) : Run :=
  let w := ResponseWriter.new
  let functionName := env.muxVarsName r
  let lookupNamespace := env.requestNamespace r
  match env.validNamespace lookupNamespace with
  | .error err => ⟨w.Error err StatusBadRequest, [.validNamespace lookupNamespace], false⟩
  | .ok valid =>
    if !valid then
      ⟨w.Error "namespace not valid" StatusBadRequest, [.validNamespace lookupNamespace], false⟩
    else
      let tr : List Event :=
        [.validNamespace lookupNamespace, .GetFunction functionName lookupNamespace]
      match env.GetFunction functionName lookupNamespace with
      | .ok f =>
        let info := updateReplica env functionName r
        match info.function with
        | none => ⟨w, tr ++ info.calls, true⟩
        | some replicaInfo =>
          ⟨((w.Set "Content-Type" "application/json").WriteHeader StatusOK).Write
              (.function (foundStatus functionName f replicaInfo)), tr ++ info.calls, false⟩
      | .error _ => ⟨w.WriteHeader StatusNotFound, tr, false⟩

/-! ## The scale handler (scale.go) -/

/-- The handler returned by `MakeReplicaUpdateHandler`.  The body is read in
full and put back before the request is forwarded, so the forwarded request is
`r` itself. -/
def MakeReplicaUpdateHandler (env : Env) (r : Request) : Run :=
  let w := ResponseWriter.new
  match r.Body with
  | none => ⟨w.Error "expected a body" StatusBadRequest, [], false⟩
  | some bodyBytes =>
    match env.Unmarshal bodyBytes with
    | .error err => ⟨w.Error err StatusBadRequest, [], false⟩
    | .ok req =>
      let ns := env.requestNamespace r
      match env.validNamespace ns with
      | .error err => ⟨w.Error err StatusBadRequest, [.validNamespace ns], false⟩
      | .ok valid =>
        if !valid then
          ⟨w.Error "namespace not valid" StatusBadRequest, [.validNamespace ns], false⟩
        else
          let name := req.ServiceName
          match env.Resolve name with
          | .error _ =>
            ⟨Errorf w StatusServiceUnavailable ("No endpoints available for: " ++ name ++ "."),
              [.validNamespace ns, .Resolve name], false⟩
          | .ok tmpAddr =>
            let functionAddr := tmpAddr.withSuffix "/scale-updater"
            match buildProxyRequest env.lib r functionAddr with
            | .error _ =>
              ⟨Errorf w StatusInternalServerError ("Failed to resolve service: " ++ name ++ "."),
                [.validNamespace ns, .Resolve name], false⟩
            | .ok proxyReq =>
              match env.Do proxyReq with
              | .error _ =>
                ⟨Errorf w StatusInternalServerError
                    ("Can\x27t reach service for: " ++ name ++ "."),
                  [.validNamespace ns, .Resolve name, .Do proxyReq], false⟩
              | .ok response =>
                let w1 := w.WriteHeader response.StatusCode
                let tr : List Event :=
                  [.validNamespace ns, .Resolve name, .Do proxyReq, .GetFunction name ns]
                match env.GetFunction name ns with
                | .error _ =>
                  ⟨w1.Error ("service " ++ name ++ " not found") StatusNotFound, tr, false⟩
                | .ok _ => ⟨w1, tr, false⟩

/-! ## Reading a run -/

/-- Whether a call is a function lookup, an address resolution or an upstream
request. -/
def Event.isLookup : Event → Bool
  | .ListFunctions _ => true
  | .GetFunction _ _ => true
  | .Resolve _ => true
  | .Do _ => true
  | _ => false

/-- Whether a call is a request sent to a supervisor. -/
def Event.isUpstream : Event → Bool
  | .Do _ => true
  | _ => false

/-! ## The transition table of the Task Lifecycle Controller -/

/-- A function record with a memory limit. -/
def sampleFunction (name : String) (memoryLimit : Int) : Function :=
  { name := name, namespace_ := "openfaas-fn", image := "ghcr.io/openfaas/" ++ name,
    labels := [], annotations := [], secrets := [], envVars := [], envProcess := "",
    memoryLimit := memoryLimit, createdAt := 0 }

/-- A `GET` request without headers. -/
def getRequest : Request :=
  { Method := "GET", URL := ⟨"", "", "/system/functions", "namespace=openfaas-fn"⟩,
    Header := Header.empty, Host := "gateway:8080", RemoteAddr := "10.0.0.9:51000",
    Body := none }

/-- A `POST` request that asks for zero replicas of `figlet`. -/
def scaleRequest : Request :=
  { Method := "POST", URL := ⟨"", "", "/system/scale-function/figlet", ""⟩,
    Header := Header.empty, Host := "gateway:8080", RemoteAddr := "10.0.0.9:51000",
    Body := some "\x7b\"serviceName\":\"figlet\",\"replicas\":0\x7d" }

/-- A request that carries an `X-Forwarded-For` header with an empty value. -/
def emptyForwardedForRequest : Request :=
  { getRequest with
    Header := fun k => if k = "X-Forwarded-For" then some [""] else none }

/-- The address of a function's task. -/
def sampleAddr (name : String) : URL :=
  if name = "figlet" then ⟨"http", "10.62.0.2:8080", "", ""⟩
  else if name = "nodeinfo" then ⟨"http", "10.62.0.3:8080", "", ""⟩
  else ⟨"http", "10.62.0.4:8080", "", ""⟩

/-- A library that builds a request for every regular URL. -/
def sampleLib : NetHTTP :=
  { accepts := fun _ _ => true, irregular := fun _ _ => .error "net/url: parse error" }

/-- Three deployed functions with running tasks; every supervisor answers 200
and reports one replica. -/
def healthyEnv : Env :=
  { requestNamespace := fun _ => "openfaas-fn"
    muxVarsName := fun _ => "figlet"
    Unmarshal := fun b =>
      if b = "\x7b\"serviceName\":\"figlet\",\"replicas\":0\x7d" then .ok ⟨"figlet", 0⟩
      else .error "invalid character"
    validNamespace := fun ns => .ok (ns == "openfaas-fn")
    ListFunctions := fun _ =>
      .ok [("figlet", sampleFunction "figlet" 67108864),
           ("nodeinfo", sampleFunction "nodeinfo" 0),
           ("env", sampleFunction "env" 0)]
    GetFunction := fun name _ =>
      if name = "figlet" then .ok (sampleFunction "figlet" 67108864)
      else .error "not found"
    Resolve := fun name => .ok (sampleAddr name)
    lib := sampleLib
    Do := fun _ => .ok ⟨200, some (.object ⟨⟨0⟩, 1, 1⟩)⟩ }

/-- The same deployment with the supervisor of `nodeinfo` unreachable. -/
def oneUnreachableEnv : Env :=
  { healthyEnv with
    Do := fun req =>
      if req.URL.Host = "10.62.0.3:8080" then .error "dial tcp 10.62.0.3:8080: connection refused"
      else .ok ⟨200, some (.object ⟨⟨0⟩, 1, 1⟩)⟩ }

/-- The same deployment with no address for any task. -/
def noEndpointEnv : Env :=
  { healthyEnv with Resolve := fun name => .error ("no endpoints for " ++ name) }

/-- The same deployment with supervisors that answer with the JSON literal `null`. -/
def nullBodyEnv : Env :=
  { healthyEnv with Do := fun _ => .ok ⟨200, some .null⟩ }

/-- The same deployment seen through a namespace without the marker label. -/
def invalidNamespaceEnv : Env :=
  { healthyEnv with validNamespace := fun _ => .ok false }

/-- The upstream request for `getRequest` and a task address without a port. -/
def portlessUpstream : Request :=
  { Method := "GET", URL := ⟨"http", "10.62.0.2:8080", "/scale-reader", "namespace=openfaas-fn"⟩,
    Header := (Header.empty.assign "X-Forwarded-Host" ["gateway:8080"]).assign
      "X-Forwarded-For" ["10.0.0.9:51000"],
    Host := "10.62.0.2:8080", RemoteAddr := "", Body := none }

/-- The upstream request for `emptyForwardedForRequest` and the address of `figlet`. -/
def overwrittenUpstream : Request :=
  { Method := "GET", URL := ⟨"http", "10.62.0.2:8080", "/scale-reader", "namespace=openfaas-fn"⟩,
    Header := (Header.assign (copyHeaders Header.empty emptyForwardedForRequest.Header)
      "X-Forwarded-Host" ["gateway:8080"]).assign "X-Forwarded-For" ["10.0.0.9:51000"],
    Host := "10.62.0.2:8080", RemoteAddr := "", Body := none }

/-- A request whose query carries a `#`, as the server delivers it when the
request line has one. -/
def fragmentRequest : Request :=
  { getRequest with URL := ⟨"", "", "/system/functions", "a=1#frag"⟩ }

/-- The upstream request for `fragmentRequest` and the address of `figlet`. -/
def fragmentUpstream : Request :=
  { Method := "GET", URL := ⟨"http", "10.62.0.2:8080", "/scale-reader", "a=1"⟩,
    Header := (Header.empty.assign "X-Forwarded-Host" ["gateway:8080"]).assign
      "X-Forwarded-For" ["10.0.0.9:51000"],
    Host := "10.62.0.2:8080", RemoteAddr := "", Body := none }

/-- A request built by hand, without a method and without a declared Host, that
carries two values of `X-Forwarded-Host`, the first one empty. -/
def handBuiltRequest : Request :=
  { Method := "", URL := ⟨"", "", "/", "a=1#frag"⟩,
    Header := fun k => if k = "X-Forwarded-Host" then some ["", "edge.example"] else none,
    Host := "", RemoteAddr := "10.0.0.9:51000", Body := none }

/-- The upstream request for `handBuiltRequest` and a base URL built by hand,
with an upper-case scheme, a port of its own and a path without a leading `/`. -/
def handBuiltUpstream : Request :=
  { Method := "GET", URL := ⟨"http", "10.62.0.2:9000", "/scale-reader", "a=1"⟩,
    Header := (copyHeaders Header.empty handBuiltRequest.Header).assign
      "X-Forwarded-For" ["10.0.0.9:51000"],
    Host := "10.62.0.2:9000", RemoteAddr := "", Body := none }

/-- A request that carries both forwarding headers with values. -/
def forwardedRequest : Request :=
  { getRequest with
    Header := fun k =>
      if k = "X-Forwarded-Host" then some ["shop.example"]
      else if k = "X-Forwarded-For" then some ["203.0.113.7", "10.0.0.1"] else none }

/-- The upstream request for `forwardedRequest` and the address of `figlet`. -/
def forwardedUpstream : Request :=
  { Method := "GET", URL := ⟨"http", "10.62.0.2:8080", "/scale-reader", "namespace=openfaas-fn"⟩,
    Header := copyHeaders Header.empty forwardedRequest.Header,
    Host := "10.62.0.2:8080", RemoteAddr := "", Body := none }

/-! ## buildProxyRequest -/

/-- Copying into a fresh header map gives the source map. -/
theorem copyHeaders_empty (source : Header) : copyHeaders Header.empty source = source := by
  funext k
  unfold copyHeaders Header.empty
  cases source k <;> rfl

/-- A request from `http.NewRequest` has an empty header map and no body. -/
theorem NewRequest_fresh (lib : NetHTTP) (method : String) (u : URL) (q : Request)
    (h : NewRequest lib method u = .ok q) : q.Header = Header.empty ∧ q.Body = none := by
  unfold NewRequest at h
  dsimp only at h
  split at h
  · cases h
  · injection h with h
    subst h
    exact ⟨rfl, rfl⟩

/-- The request from `http.NewRequest` for a URL with a host and a regular scheme. -/
theorem NewRequest_regular (lib : NetHTTP) (method : String) (u : URL) (q : Request)
    (hh : u.Host ≠ "") (hs : regularScheme u.Scheme = true)
    (h : NewRequest lib method u = .ok q) :
    q.Method = (if method = "" then "GET" else method) ∧
    q.URL = { u.reparsed with Host := removeEmptyPort u.Host } := by
  unfold NewRequest at h
  have hc : u.Host ≠ "" ∧ regularScheme u.Scheme = true := ⟨hh, hs⟩
  rw [if_pos hc] at h
  by_cases ha : lib.accepts method u = true
  · rw [if_pos ha] at h
    dsimp only at h
    injection h with h
    subst h
    exact ⟨rfl, rfl⟩
  · rw [if_neg ha] at h
    cases h

/-- The text after the last colon is a suffix of the host that follows a colon. -/
theorem afterLastColon_some (l s : List Char) (h : afterLastColon l = some s) :
    ∃ pre, l = pre ++ ':' :: s := by
  induction l with
  | nil => simp [afterLastColon] at h
  | cons c cs ih =>
    unfold afterLastColon at h
    cases hr : afterLastColon cs with
    | some t =>
      rw [hr] at h
      simp only [Option.some.injEq] at h
      subst h
      obtain ⟨pre, hpre⟩ := ih hr
      exact ⟨c :: pre, by rw [hpre]; rfl⟩
    | none =>
      rw [hr] at h
      by_cases hc : c = ':'
      · rw [if_pos hc] at h
        simp only [Option.some.injEq] at h
        subst h
        subst hc
        exact ⟨[], rfl⟩
      · rw [if_neg hc] at h
        cases h

/-- The host of the upstream URL ends in a digit of its port. -/
theorem proxyHost_getLast (baseURL : URL) :
    ∃ d, (proxyHost baseURL).data.getLast? = some d ∧ d.isDigit = true := by
  unfold proxyHost
  by_cases hp : baseURL.Port = ""
  · rw [if_pos hp]
    refine ⟨'0', ?_, by decide⟩
    simp [String.data_append, watchdogPort]
  · rw [if_neg hp]
    unfold URL.Port at hp
    cases ha : afterLastColon baseURL.Host.data with
    | none =>
      rw [ha] at hp
      exact absurd rfl hp
    | some s =>
      rw [ha] at hp
      dsimp only at hp
      by_cases hd : s.all Char.isDigit = true
      · rw [if_pos hd] at hp
        obtain ⟨pre, hpre⟩ := afterLastColon_some _ _ ha
        have hne : s ≠ [] := by
          intro hnil
          subst hnil
          exact hp rfl
        refine ⟨s.getLast hne, ?_, ?_⟩
        · obtain ⟨x, xs, hx⟩ := List.exists_cons_of_ne_nil hne
          subst hx
          rw [hpre, List.getLast?_append, List.getLast?_cons_cons,
            List.getLast?_eq_getLast _ hne]
          rfl
        · exact List.all_eq_true.mp hd _ (List.getLast_mem hne)
      · rw [if_neg hd] at hp
        exact absurd rfl hp

/-- The host of the upstream URL has no empty port to remove. -/
theorem removeEmptyPort_proxyHost (baseURL : URL) :
    removeEmptyPort (proxyHost baseURL) = proxyHost baseURL := by
  obtain ⟨d, hd, hdig⟩ := proxyHost_getLast baseURL
  unfold removeEmptyPort
  rw [hd, if_neg]
  intro hc
  injection hc with hc
  subst hc
  revert hdig
  decide

/-- The host of the upstream URL is not empty. -/
theorem proxyHost_ne_empty (baseURL : URL) : proxyHost baseURL ≠ "" := by
  obtain ⟨d, hd, _⟩ := proxyHost_getLast baseURL
  intro h
  rw [h] at hd
  cases hd

/-- The header map of the request that `buildProxyRequest` returns. -/
theorem buildProxyRequest_header (lib : NetHTTP) (r : Request) (baseURL : URL)
    (up : Request) (h : buildProxyRequest lib r baseURL = .ok up) :
    up.Header =
      (let h1 := if r.Host.length > 0 ∧ r.Header.Get "X-Forwarded-Host" = "" then
                   r.Header.assign "X-Forwarded-Host" [r.Host] else r.Header
       if h1.Get "X-Forwarded-For" = "" then h1.assign "X-Forwarded-For" [r.RemoteAddr]
       else h1) := by
  unfold buildProxyRequest at h
  dsimp only at h
  cases hn : NewRequest lib r.Method
      { Scheme := baseURL.Scheme,
        Host := if baseURL.Port = "" then baseURL.Host ++ ":" ++ watchdogPort else baseURL.Host,
        RawQuery := r.URL.RawQuery, Path := baseURL.Path } with
  | error e =>
    rw [hn] at h
    cases h
  | ok q =>
    rw [hn] at h
    obtain ⟨hq, _⟩ := NewRequest_fresh _ _ _ _ hn
    injection h with h
    subst h
    dsimp only
    rw [hq, copyHeaders_empty]

/-- The method and the URL of the request that `buildProxyRequest` returns for a
base URL with a regular scheme. -/
theorem buildProxyRequest_regular (lib : NetHTTP) (r : Request) (baseURL : URL)
    (up : Request) (hs : regularScheme baseURL.Scheme = true)
    (h : buildProxyRequest lib r baseURL = .ok up) :
    up.Method = (if r.Method = "" then "GET" else r.Method) ∧
    up.URL = { Scheme := lowerScheme baseURL.Scheme, Host := proxyHost baseURL,
               Path := rootedPath baseURL.Path, RawQuery := beforeFragment r.URL.RawQuery } := by
  unfold buildProxyRequest at h
  dsimp only at h
  cases hn : NewRequest lib r.Method
      { Scheme := baseURL.Scheme,
        Host := if baseURL.Port = "" then baseURL.Host ++ ":" ++ watchdogPort else baseURL.Host,
        RawQuery := r.URL.RawQuery, Path := baseURL.Path } with
  | error e =>
    rw [hn] at h
    cases h
  | ok q =>
    rw [hn] at h
    obtain ⟨hm, hu⟩ := NewRequest_regular lib r.Method
      { Scheme := baseURL.Scheme,
        Host := if baseURL.Port = "" then baseURL.Host ++ ":" ++ watchdogPort else baseURL.Host,
        RawQuery := r.URL.RawQuery, Path := baseURL.Path } q
      (proxyHost_ne_empty baseURL) hs hn
    injection h with h
    subst h
    refine ⟨hm, ?_⟩
    dsimp only
    rw [hu]
    have hrem := removeEmptyPort_proxyHost baseURL
    unfold proxyHost at hrem ⊢
    simp only [URL.reparsed]
    rw [hrem]

/-- The port of an address: none for a bare host or a bracketed IPv6 host, the
digits after the last colon otherwise. -/
theorem Port_examples :
    (URL.mk "http" "10.62.0.5" "" "").Port = "" ∧
    (URL.mk "http" "10.62.0.5:9000" "" "").Port = "9000" ∧
    (URL.mk "http" "[::1]" "" "").Port = "" ∧
    (URL.mk "http" "[::1]:8081" "" "").Port = "8081" ∧
    (URL.mk "http" "figlet:" "" "").Port = "" := by
  decide

/-- The canonical form of some byte counts. -/
theorem quantityString_examples :
    quantityString 67108864 = "64Mi" ∧ quantityString 0 = "0" ∧
    quantityString 1000 = "1k" ∧ quantityString 100 = "100" ∧
    quantityString 1025 = "1025" ∧ quantityString 1536 = "1536" ∧
    quantityString 1073741824 = "1Gi" ∧ quantityString (-2048) = "-2Ki" := by
  decide

theorem Header.assign_same (h : Header) (key : String) (vs : List String) :
    (h.assign key vs) key = some vs := by
  simp [Header.assign]

theorem Header.assign_other (h : Header) (key k : String) (vs : List String) (hk : k ≠ key) :
    (h.assign key vs) k = h k := by
  simp [Header.assign, hk]

theorem Header.Get_assign_same (h : Header) (key v : String) :
    (h.assign key [v]).Get key = v := by
  simp [Header.Get, Header.assign]

theorem Header.Get_assign_other (h : Header) (key k : String) (vs : List String)
    (hk : k ≠ key) : (h.assign key vs).Get k = h.Get k := by
  simp [Header.Get, Header.assign, hk]

theorem length_zero_eq_empty (s : String) (h : ¬ s.length > 0) : s = "" := by
  cases s with
  | mk l =>
    have hl : l.length = 0 := by
      have : (String.mk l).length = l.length := rfl
      omega
    rw [List.length_eq_zero.mp hl]

theorem length_pos_of_ne_empty (s : String) (h : s ≠ "") : s.length > 0 := by
  by_contra hn
  exact h (length_zero_eq_empty s hn)

/-- The query is kept whole when it has no `#`. -/
theorem beforeFragment_plain (s : String) (h : '#' ∉ s.data) : beforeFragment s = s := by
  unfold beforeFragment
  have ht : s.data.takeWhile (fun c => c != '#') = s.data := by
    apply List.takeWhile_eq_self_iff.mpr
    intro c hc
    have : c ≠ '#' := fun heq => h (heq ▸ hc)
    simpa using this
  rw [ht]

/-- A path that is empty or starts with `/` is kept as it is. -/
theorem rootedPath_plain (p : String) (h : p = "" ∨ p.data.head? = some '/') :
    rootedPath p = p := by
  unfold rootedPath
  cases hp : p.data with
  | nil => rfl
  | cons c cs =>
    rcases h with h | h
    · rw [h] at hp
      cases hp
    · rw [hp] at h
      simp only [List.head?_cons, Option.some.injEq] at h
      simp [h]

/-- A scheme without upper-case letters is kept as it is. -/
theorem lowerScheme_plain (s : String) (h : ∀ c ∈ s.data, c.isUpper = false) :
    lowerScheme s = s := by
  unfold lowerScheme
  have hm : s.data.map Char.toLower = s.data := by
    have : ∀ l : List Char, (∀ c ∈ l, c.isUpper = false) → l.map Char.toLower = l := by
      intro l
      induction l with
      | nil => intro _; rfl
      | cons c cs ih =>
        intro hl
        have hc := hl c (List.mem_cons_self _ _)
        have hlow : c.toLower = c := by
          unfold Char.toLower
          unfold Char.isUpper at hc
          have hnot : ¬ (c.toNat ≥ 65 ∧ c.toNat ≤ 90) := by
            intro hr
            have h1 : c.val ≥ 65 := by
              show (65 : UInt32).toNat ≤ c.val.toNat
              exact hr.1
            have h2 : c.val ≤ 90 := by
              show c.val.toNat ≤ (90 : UInt32).toNat
              exact hr.2
            simp [h1, h2] at hc
          simp only [hnot, if_false]
        rw [List.map_cons, hlow, ih (fun d hd => hl d (List.mem_cons_of_mem _ hd))]
    exact this s.data h
  rw [hm]

/-- C9, as the code has it: when `buildProxyRequest` succeeds for a base URL
whose scheme is empty or a scheme name, the upstream request has the inbound
method (GET when the inbound method is empty), the inbound raw query string up
to its first `#`, the base URL's scheme in lower case, the base URL's path with
a `/` put in front when it is not empty and does not start with one, and as host
the base URL's host when it carries a port and that host followed by `:8080`
when it carries none. -/
theorem buildProxyRequest_target (lib : NetHTTP) (r : Request) (baseURL : URL) (up : Request)
    (hs : regularScheme baseURL.Scheme = true)
    (h : buildProxyRequest lib r baseURL = .ok up) :
    up.Method = (if r.Method = "" then "GET" else r.Method) ∧
    up.URL.RawQuery = beforeFragment r.URL.RawQuery ∧
    up.URL.Scheme = lowerScheme baseURL.Scheme ∧
    up.URL.Path = rootedPath baseURL.Path ∧
    (baseURL.Port ≠ "" → up.URL.Host = baseURL.Host) ∧
    (baseURL.Port = "" → up.URL.Host = baseURL.Host ++ ":8080") := by
  obtain ⟨hm, hu⟩ := buildProxyRequest_regular lib r baseURL up hs h
  rw [hu]
  refine ⟨hm, rfl, rfl, rfl, ?_, ?_⟩
  · intro hp
    simp [proxyHost, hp]
  · intro hp
    simp only [proxyHost, hp, if_true, watchdogPort, String.append_assoc]
    rfl

theorem buildProxyRequest_target_witness :
    (buildProxyRequest sampleLib getRequest ⟨"http", "10.62.0.2", "/scale-reader", ""⟩
      = .ok portlessUpstream ∧
     portlessUpstream.Method = "GET" ∧
     portlessUpstream.URL = ⟨"http", "10.62.0.2:8080", "/scale-reader", "namespace=openfaas-fn"⟩) ∧
    (buildProxyRequest sampleLib handBuiltRequest ⟨"HTTP", "10.62.0.2:9000", "scale-reader", ""⟩
      = .ok handBuiltUpstream ∧
     handBuiltUpstream.Method = "GET" ∧
     handBuiltUpstream.URL = ⟨"http", "10.62.0.2:9000", "/scale-reader", "a=1"⟩) :=
  have h1 : buildProxyRequest sampleLib getRequest
      ⟨"http", "10.62.0.2", "/scale-reader", ""⟩ = .ok portlessUpstream := rfl
  have t1 := buildProxyRequest_target sampleLib getRequest
    ⟨"http", "10.62.0.2", "/scale-reader", ""⟩ portlessUpstream (by decide) h1
  have h2 : buildProxyRequest sampleLib handBuiltRequest
      ⟨"HTTP", "10.62.0.2:9000", "scale-reader", ""⟩ = .ok handBuiltUpstream := rfl
  have t2 := buildProxyRequest_target sampleLib handBuiltRequest
    ⟨"HTTP", "10.62.0.2:9000", "scale-reader", ""⟩ handBuiltUpstream (by decide) h2
  ⟨⟨h1, t1.1, rfl⟩, ⟨h2, t2.1, rfl⟩⟩

/-- C9 as stated fails: an inbound raw query with a `#` reaches the upstream
request cut off at the `#`. -/
theorem buildProxyRequest_cuts_query_at_fragment :
    buildProxyRequest sampleLib fragmentRequest
      ⟨"http", "10.62.0.2:8080", "/scale-reader", ""⟩ = .ok fragmentUpstream ∧
    fragmentRequest.URL.RawQuery = "a=1#frag" ∧
    fragmentUpstream.URL.RawQuery = "a=1" ∧
    fragmentUpstream.URL.RawQuery ≠ fragmentRequest.URL.RawQuery :=
  ⟨rfl, rfl, rfl, by decide⟩

/-- On a request with a method and a query without `#`, and a base URL with a
lower-case scheme name and a path that starts with `/`, the upstream request has
the inbound method and raw query and the scheme and path of the base URL. -/
theorem buildProxyRequest_target_plain (lib : NetHTTP) (r : Request) (baseURL : URL)
    (up : Request) (hs : regularScheme baseURL.Scheme = true)
    (hmethod : r.Method ≠ "") (hquery : '#' ∉ r.URL.RawQuery.data)
    (hlower : ∀ c ∈ baseURL.Scheme.data, c.isUpper = false)
    (hpath : baseURL.Path = "" ∨ baseURL.Path.data.head? = some '/')
    (h : buildProxyRequest lib r baseURL = .ok up) :
    up.Method = r.Method ∧ up.URL.RawQuery = r.URL.RawQuery ∧
    up.URL.Scheme = baseURL.Scheme ∧ up.URL.Path = baseURL.Path := by
  obtain ⟨h1, h2, h3, h4, _, _⟩ := buildProxyRequest_target lib r baseURL up hs h
  rw [h1, h2, h3, h4, if_neg hmethod, beforeFragment_plain _ hquery,
    lowerScheme_plain _ hlower, rootedPath_plain _ hpath]
  exact ⟨rfl, rfl, rfl, rfl⟩

/-- Headers other than the two forwarding headers are copied unchanged. -/
theorem buildProxyRequest_other_headers (lib : NetHTTP) (r : Request) (baseURL : URL)
    (up : Request) (h : buildProxyRequest lib r baseURL = .ok up) (k : String)
    (h1 : k ≠ "X-Forwarded-Host") (h2 : k ≠ "X-Forwarded-For") :
    up.Header k = r.Header k := by
  rw [buildProxyRequest_header lib r baseURL up h]
  dsimp only
  split <;> split <;> simp [Header.assign, h1, h2]

/-- C8, as the code has it: when `buildProxyRequest` succeeds, an inbound
`X-Forwarded-Host` that is absent or has an empty first value is replaced by the
declared Host as its only value when the declared Host is not empty, and is
left as it came in when the declared Host is empty; an inbound `X-Forwarded-For`
that is absent or has an empty first value is replaced by the remote address as
its only value; and a forwarding header whose first inbound value is not empty
reaches the upstream request with its inbound values unchanged. -/
theorem buildProxyRequest_forwarding_headers (lib : NetHTTP) (r : Request)
    (baseURL : URL) (up : Request) (h : buildProxyRequest lib r baseURL = .ok up) :
    (r.Header.Get "X-Forwarded-Host" = "" → r.Host ≠ "" →
      up.Header "X-Forwarded-Host" = some [r.Host]) ∧
    (r.Header.Get "X-Forwarded-Host" = "" → r.Host = "" →
      up.Header "X-Forwarded-Host" = r.Header "X-Forwarded-Host") ∧
    (r.Header.Get "X-Forwarded-For" = "" →
      up.Header "X-Forwarded-For" = some [r.RemoteAddr]) ∧
    (r.Header.Get "X-Forwarded-Host" ≠ "" →
      up.Header "X-Forwarded-Host" = r.Header "X-Forwarded-Host") ∧
    (r.Header.Get "X-Forwarded-For" ≠ "" →
      up.Header "X-Forwarded-For" = r.Header "X-Forwarded-For") := by
  have hh := buildProxyRequest_header lib r baseURL up h
  have hne : "X-Forwarded-For" ≠ "X-Forwarded-Host" := by decide
  have hne2 : "X-Forwarded-Host" ≠ "X-Forwarded-For" := by decide
  have hempty : r.Host = "" → ¬ r.Host.length > 0 := by
    intro h0
    rw [h0]
    decide
  rw [hh]
  dsimp only
  by_cases hc : r.Host.length > 0 ∧ r.Header.Get "X-Forwarded-Host" = ""
  · rw [if_pos hc]
    by_cases hf : r.Header.Get "X-Forwarded-For" = ""
    · have hg : (r.Header.assign "X-Forwarded-Host" [r.Host]).Get "X-Forwarded-For" = "" := by
        rw [Header.Get_assign_other _ _ _ _ hne]
        exact hf
      rw [if_pos hg]
      refine ⟨fun _ _ => ?_, fun _ h0 => absurd hc.1 (hempty h0), fun _ => ?_,
        fun hx => absurd hc.2 hx, fun hx => absurd hf hx⟩
      · rw [Header.assign_other _ _ _ _ hne2, Header.assign_same]
      · rw [Header.assign_same]
    · have hg : ¬ (r.Header.assign "X-Forwarded-Host" [r.Host]).Get "X-Forwarded-For" = "" := by
        rw [Header.Get_assign_other _ _ _ _ hne]
        exact hf
      rw [if_neg hg]
      refine ⟨fun _ _ => ?_, fun _ h0 => absurd hc.1 (hempty h0), fun hx => absurd hx hf,
        fun hx => absurd hc.2 hx, fun _ => ?_⟩
      · rw [Header.assign_same]
      · rw [Header.assign_other _ _ _ _ hne]
  · rw [if_neg hc]
    have hhost : r.Header.Get "X-Forwarded-Host" = "" → r.Host ≠ "" → False := fun hx hn =>
      hc ⟨length_pos_of_ne_empty r.Host hn, hx⟩
    by_cases hf : r.Header.Get "X-Forwarded-For" = ""
    · rw [if_pos hf]
      refine ⟨fun hx hn => (hhost hx hn).elim, fun _ _ => ?_, fun _ => ?_, fun _ => ?_,
        fun hx => absurd hf hx⟩
      · rw [Header.assign_other _ _ _ _ hne2]
      · rw [Header.assign_same]
      · rw [Header.assign_other _ _ _ _ hne2]
    · rw [if_neg hf]
      exact ⟨fun hx hn => (hhost hx hn).elim, fun _ _ => rfl, fun hx => absurd hx hf,
        fun _ => rfl, fun _ => rfl⟩

theorem buildProxyRequest_forwarding_headers_witness :
    (portlessUpstream.Header "X-Forwarded-Host" = some ["gateway:8080"] ∧
     portlessUpstream.Header "X-Forwarded-For" = some ["10.0.0.9:51000"]) ∧
    (handBuiltRequest.Host = "" ∧
     handBuiltUpstream.Header "X-Forwarded-Host" = some ["", "edge.example"] ∧
     handBuiltUpstream.Header "X-Forwarded-For" = some ["10.0.0.9:51000"]) ∧
    (forwardedUpstream.Header "X-Forwarded-Host" = some ["shop.example"] ∧
     forwardedUpstream.Header "X-Forwarded-For" = some ["203.0.113.7", "10.0.0.1"]) :=
  have t1 := buildProxyRequest_forwarding_headers sampleLib getRequest
    ⟨"http", "10.62.0.2", "/scale-reader", ""⟩ portlessUpstream rfl
  have t2 := buildProxyRequest_forwarding_headers sampleLib handBuiltRequest
    ⟨"HTTP", "10.62.0.2:9000", "scale-reader", ""⟩ handBuiltUpstream rfl
  have t3 := buildProxyRequest_forwarding_headers sampleLib forwardedRequest
    ⟨"http", "10.62.0.2:8080", "/scale-reader", ""⟩ forwardedUpstream rfl
  ⟨⟨t1.1 rfl (by decide), t1.2.2.1 rfl⟩,
   ⟨rfl, t2.2.1 rfl rfl, t2.2.2.1 rfl⟩,
   ⟨t3.2.2.2.1 (by decide), t3.2.2.2.2 (by decide)⟩⟩

/-- C8 as stated fails: an inbound request that carries `X-Forwarded-For` with
an empty value gets it replaced by the remote address. -/
theorem buildProxyRequest_overwrites_empty_forwarded_for :
    buildProxyRequest sampleLib emptyForwardedForRequest
      ⟨"http", "10.62.0.2:8080", "/scale-reader", ""⟩ = .ok overwrittenUpstream ∧
    emptyForwardedForRequest.Header "X-Forwarded-For" = some [""] ∧
    overwrittenUpstream.Header "X-Forwarded-For" = some ["10.0.0.9:51000"] ∧
    overwrittenUpstream.Header "X-Forwarded-For" ≠
      emptyForwardedForRequest.Header "X-Forwarded-For" :=
  ⟨rfl, rfl, rfl, by
    intro h
    have h2 : some ["10.0.0.9:51000"] = some [""] := h
    revert h2
    decide⟩

/-! ## The namespace gate -/

/-- C5: in the list handler, the single-function read handler and the scale
handler, a namespace that `validNamespace` reports as not valid (without an
error) gives status 400, and the handler makes no function lookup, no address
resolution and no upstream request. -/
theorem namespace_gate (env : Env) (r : Request)
    (h : env.validNamespace (env.requestNamespace r) = .ok false) :
    ((MakeReadHandler env r).w.status = some 400 ∧
      (MakeReadHandler env r).trace.all (fun e => !e.isLookup) = true) ∧
    ((MakeReplicaReaderHandler env r).w.status = some 400 ∧
      (MakeReplicaReaderHandler env r).trace.all (fun e => !e.isLookup) = true) ∧
    ((MakeReplicaUpdateHandler env r).w.status = some 400 ∧
      (MakeReplicaUpdateHandler env r).trace.all (fun e => !e.isLookup) = true) := by
  refine ⟨?_, ?_, ?_⟩
  · unfold MakeReadHandler
    simp only [h]
    exact ⟨rfl, rfl⟩
  · unfold MakeReplicaReaderHandler
    simp only [h]
    exact ⟨rfl, rfl⟩
  · cases hb : r.Body with
    | none =>
      simp only [MakeReplicaUpdateHandler, hb]
      exact ⟨rfl, rfl⟩
    | some bodyBytes =>
      cases hu : env.Unmarshal bodyBytes with
      | error err =>
        simp only [MakeReplicaUpdateHandler, hb, hu]
        exact ⟨rfl, rfl⟩
      | ok req =>
        simp only [MakeReplicaUpdateHandler, hb, hu, h]
        exact ⟨rfl, rfl⟩

theorem namespace_gate_witness :
    invalidNamespaceEnv.validNamespace (invalidNamespaceEnv.requestNamespace getRequest)
      = .ok false ∧
    (MakeReadHandler invalidNamespaceEnv getRequest).w.status = some 400 ∧
    (MakeReplicaReaderHandler invalidNamespaceEnv getRequest).w.status = some 400 ∧
    (MakeReplicaUpdateHandler invalidNamespaceEnv scaleRequest).w.status = some 400 ∧
    (MakeReplicaUpdateHandler invalidNamespaceEnv scaleRequest).w.body =
      [.text "namespace not valid\n"] :=
  have t := namespace_gate invalidNamespaceEnv getRequest rfl
  have u := namespace_gate invalidNamespaceEnv scaleRequest rfl
  ⟨rfl, t.1.1, t.2.1.1, u.2.2.1, by decide⟩

/-! ## The scale handler -/

/-- C4: a scale request whose body parses and whose namespace is valid, for a
service that the resolver cannot resolve, is answered with status 503 and a
message that contains the requested service name, and no request is sent to a
supervisor. -/
theorem scale_resolution_failure (env : Env) (r : Request) (bodyBytes : String)
    (req : ScaleServiceRequest) (resolveErr : String)
    (hb : r.Body = some bodyBytes) (hu : env.Unmarshal bodyBytes = .ok req)
    (hv : env.validNamespace (env.requestNamespace r) = .ok true)
    (hr : env.Resolve req.ServiceName = .error resolveErr) :
    (MakeReplicaUpdateHandler env r).w.status = some 503 ∧
    (∃ msg before after, (MakeReplicaUpdateHandler env r).w.body = [.text msg] ∧
      msg = before ++ req.ServiceName ++ after) ∧
    (MakeReplicaUpdateHandler env r).trace.all (fun e => !e.isUpstream) = true := by
  unfold MakeReplicaUpdateHandler
  simp only [hb, hu, hv, hr]
  refine ⟨rfl, ⟨_, "No endpoints available for: ", ".\n", rfl, ?_⟩, rfl⟩
  simp only [String.append_assoc]
  rfl

theorem scale_resolution_failure_witness :
    (MakeReplicaUpdateHandler noEndpointEnv scaleRequest).w.status = some 503 ∧
    (MakeReplicaUpdateHandler noEndpointEnv scaleRequest).w.body =
      [.text "No endpoints available for: figlet.\n"] ∧
    (MakeReplicaUpdateHandler noEndpointEnv scaleRequest).trace.all
      (fun e => !e.isUpstream) = true :=
  have t := scale_resolution_failure noEndpointEnv scaleRequest
    "\x7b\"serviceName\":\"figlet\",\"replicas\":0\x7d" ⟨"figlet", 0⟩ "no endpoints for figlet"
    rfl rfl rfl rfl
  ⟨t.1, by decide, t.2.2⟩

/-- When `updateReplica` returns an error, the pointer it returns is nil. -/
theorem updateReplica_err_nil (env : Env) (functionName : String) (r : Request)
    (h : (updateReplica env functionName r).err ≠ none) :
    (updateReplica env functionName r).function = none := by
  cases hr : env.Resolve functionName with
  | error e => simp [updateReplica, hr]
  | ok tmpAddr =>
    cases hp : buildProxyRequest env.lib r (tmpAddr.withSuffix "/scale-reader") with
    | error e => simp [updateReplica, hr, hp]
    | ok proxyReq =>
      cases hd : env.Do proxyReq with
      | error e => simp [updateReplica, hr, hp, hd]
      | ok response =>
        cases hbody : response.Body with
        | none => simp [updateReplica, hr, hp, hd, hbody]
        | some b =>
          cases b <;> simp [updateReplica, hr, hp, hd, hbody] at h ⊢

/-- The pointer that `updateReplica` returns with a nil error is nil exactly when
the response has no body or the body is the JSON literal `null`. -/
theorem updateReplica_nil_nil_iff (env : Env) (functionName : String) (r : Request) :
    ((updateReplica env functionName r).err = none ∧
      (updateReplica env functionName r).function = none) ↔
    ∃ tmpAddr proxyReq response,
      env.Resolve functionName = .ok tmpAddr ∧
      buildProxyRequest env.lib r (tmpAddr.withSuffix "/scale-reader") = .ok proxyReq ∧
      env.Do proxyReq = .ok response ∧
      (response.Body = none ∨ response.Body = some .null) := by
  unfold updateReplica
  cases hr : env.Resolve functionName with
  | error e => simp
  | ok tmpAddr =>
    cases hp : buildProxyRequest env.lib r (tmpAddr.withSuffix "/scale-reader") with
    | error e => simp [hp]
    | ok proxyReq =>
      cases hd : env.Do proxyReq with
      | error e => simp [hp, hd]
      | ok response =>
        cases hbody : response.Body with
        | none => simp [hp, hd, hbody]
        | some b =>
          cases b <;> simp [hp, hd, hbody]

/-- C10 fails on the code: when the supervisor answers `/scale-reader` with the
JSON literal `null`, `updateReplica` returns a nil error together with a nil
pointer. -/
theorem updateReplica_null_body (env : Env) (functionName : String) (r : Request)
    (tmpAddr : URL) (proxyReq : Request) (response : Response)
    (hr : env.Resolve functionName = .ok tmpAddr)
    (hp : buildProxyRequest env.lib r (tmpAddr.withSuffix "/scale-reader") = .ok proxyReq)
    (hd : env.Do proxyReq = .ok response) (hbody : response.Body = some .null) :
    (updateReplica env functionName r).err = none ∧
    (updateReplica env functionName r).function = none := by
  simp [updateReplica, hr, hp, hd, hbody]

theorem updateReplica_null_body_witness :
    nullBodyEnv.Do portlessUpstream = .ok ⟨200, some .null⟩ ∧
    (updateReplica nullBodyEnv "figlet" getRequest).err = none ∧
    (updateReplica nullBodyEnv "figlet" getRequest).function = none :=
  have t := updateReplica_null_body nullBodyEnv "figlet" getRequest
    ⟨"http", "10.62.0.2:8080", "", ""⟩ portlessUpstream ⟨200, some .null⟩ rfl rfl rfl rfl
  ⟨rfl, t.1, t.2⟩

/-- The loop of the list handler stops on the first function whose replica
record is nil, wherever that function stands in the iteration order. -/
theorem readLoop_stops (env : Env) (r : Request) :
    ∀ (fns : List (String × Function)) (res : List FunctionStatus) (tr : List Event),
      (∃ p ∈ fns, (updateReplica env p.1 r).function = none) →
      (readLoop env r fns res tr).1 = none := by
  intro fns
  induction fns with
  | nil =>
    intro res tr h
    obtain ⟨p, hp, _⟩ := h
    cases hp
  | cons q rest ih =>
    intro res tr h
    obtain ⟨name, fn⟩ := q
    cases hq : (updateReplica env name r).function with
    | none => simp only [readLoop, hq]
    | some replicaInfo =>
      simp only [readLoop, hq]
      apply ih
      obtain ⟨p, hp, hnil⟩ := h
      rcases List.mem_cons.mp hp with heq | hmem
      · subst heq
        rw [hq] at hnil
        cases hnil
      · exact ⟨p, hmem, hnil⟩

/-- When every replica record is at hand the loop yields one entry per
function, in iteration order. -/
theorem readLoop_complete (env : Env) (r : Request) :
    ∀ (fns : List (String × Function)) (res : List FunctionStatus) (tr : List Event),
      (∀ p ∈ fns, (updateReplica env p.1 r).function ≠ none) →
      ∃ out, (readLoop env r fns res tr).1 = some (res ++ out) ∧ out.length = fns.length ∧
        out.map (fun st => st.Name) = fns.map (fun p => p.2.name) := by
  intro fns
  induction fns with
  | nil =>
    intro res tr _
    exact ⟨[], by simp [readLoop], rfl, rfl⟩
  | cons q rest ih =>
    intro res tr h
    obtain ⟨name, fn⟩ := q
    cases hq : (updateReplica env name r).function with
    | none => exact absurd hq (h (name, fn) (List.mem_cons_self _ _))
    | some replicaInfo =>
      simp only [readLoop, hq]
      obtain ⟨out, h1, h2, h3⟩ := ih (res ++ [listStatus fn replicaInfo])
        (tr ++ (updateReplica env name r).calls)
        (fun p hp => h p (List.mem_cons_of_mem _ hp))
      refine ⟨listStatus fn replicaInfo :: out, ?_, ?_, ?_⟩
      · rw [h1, List.append_assoc]
        rfl
      · simp [h2]
      · simp only [List.map_cons, h3]
        congr 1
        unfold listStatus
        dsimp only
        split <;> rfl

/-- C1 fails on the code: with a valid namespace and a function list in hand, an
error from `updateReplica` for any one function makes the list handler read a
field of a nil record: it stops without a status and without a body, so no
entry is returned for any function. -/
theorem MakeReadHandler_stops_on_failed_replica_read (env : Env) (r : Request)
    (fns : List (String × Function)) (name : String) (fn : Function)
    (hv : env.validNamespace (env.requestNamespace r) = .ok true)
    (hl : env.ListFunctions (env.requestNamespace r) = .ok fns)
    (hm : (name, fn) ∈ fns)
    (he : (updateReplica env name r).err ≠ none) :
    (MakeReadHandler env r).panicked = true ∧
    (MakeReadHandler env r).w.status = none ∧
    (MakeReadHandler env r).w.body = [] := by
  have hs := readLoop_stops env r fns []
    [.validNamespace (env.requestNamespace r), .ListFunctions (env.requestNamespace r)]
    ⟨(name, fn), hm, updateReplica_err_nil env name r he⟩
  unfold MakeReadHandler
  simp only [hv, hl]
  cases hrl : readLoop env r fns []
    [.validNamespace (env.requestNamespace r), .ListFunctions (env.requestNamespace r)] with
  | mk a b =>
    rw [hrl] at hs
    simp only at hs
    subst hs
    exact ⟨rfl, rfl, rfl⟩

theorem MakeReadHandler_stops_on_failed_replica_read_witness :
    (oneUnreachableEnv.ListFunctions "openfaas-fn").toOption.map List.length = some 3 ∧
    (updateReplica oneUnreachableEnv "figlet" getRequest).err = none ∧
    (updateReplica oneUnreachableEnv "nodeinfo" getRequest).err =
      some "dial tcp 10.62.0.3:8080: connection refused" ∧
    (updateReplica oneUnreachableEnv "env" getRequest).err = none ∧
    (MakeReadHandler oneUnreachableEnv getRequest).panicked = true ∧
    (MakeReadHandler oneUnreachableEnv getRequest).w.status = none ∧
    (MakeReadHandler oneUnreachableEnv getRequest).w.body = [] :=
  have t := MakeReadHandler_stops_on_failed_replica_read oneUnreachableEnv getRequest
    [("figlet", sampleFunction "figlet" 67108864), ("nodeinfo", sampleFunction "nodeinfo" 0),
      ("env", sampleFunction "env" 0)] "nodeinfo" (sampleFunction "nodeinfo" 0)
    rfl rfl (by simp) (by decide)
  ⟨rfl, rfl, rfl, rfl, t.1, t.2.1, t.2.2⟩

/-- C7 fails on the code: with a valid namespace and a function that
`GetFunction` finds, an error from `updateReplica` makes the single-function
read handler read a field of a nil record: it stops without a status and
without a body. -/
theorem MakeReplicaReaderHandler_stops_on_failed_replica_read (env : Env) (r : Request)
    (f : Function)
    (hv : env.validNamespace (env.requestNamespace r) = .ok true)
    (hg : env.GetFunction (env.muxVarsName r) (env.requestNamespace r) = .ok f)
    (he : (updateReplica env (env.muxVarsName r) r).err ≠ none) :
    (MakeReplicaReaderHandler env r).panicked = true ∧
    (MakeReplicaReaderHandler env r).w.status = none ∧
    (MakeReplicaReaderHandler env r).w.body = [] := by
  have hn := updateReplica_err_nil env (env.muxVarsName r) r he
  unfold MakeReplicaReaderHandler
  simp only [hv, hg, hn]
  exact ⟨rfl, rfl, rfl⟩

theorem MakeReplicaReaderHandler_stops_on_failed_replica_read_witness :
    noEndpointEnv.GetFunction "figlet" "openfaas-fn" = .ok (sampleFunction "figlet" 67108864) ∧
    (updateReplica noEndpointEnv "figlet" getRequest).err = some "no endpoints for figlet" ∧
    (MakeReplicaReaderHandler noEndpointEnv getRequest).panicked = true ∧
    (MakeReplicaReaderHandler noEndpointEnv getRequest).w.status = none ∧
    (MakeReplicaReaderHandler noEndpointEnv getRequest).w.body = [] :=
  have t := MakeReplicaReaderHandler_stops_on_failed_replica_read noEndpointEnv getRequest
    (sampleFunction "figlet" 67108864) rfl rfl (by decide)
  ⟨rfl, rfl, t.1, t.2.1, t.2.2⟩

/-! ## Memory limits -/

/-- Rendering digits never shortens the accumulator. -/
theorem toDigitsCore_length_ge (b : Nat) :
    ∀ (f n : Nat) (ds : List Char), ds.length ≤ (Nat.toDigitsCore b f n ds).length := by
  intro f
  induction f with
  | zero =>
    intro n ds
    simp [Nat.toDigitsCore]
  | succ f ih =>
    intro n ds
    simp only [Nat.toDigitsCore]
    split
    · simp
    · exact Nat.le_trans (by simp) (ih (n / b) (Nat.digitChar (n % b) :: ds))

/-- Only zero is rendered as the single digit `0`. -/
theorem toDigits_eq_zero (a : Nat) (h : Nat.toDigits 10 a = ['0']) : a = 0 := by
  unfold Nat.toDigits at h
  simp only [Nat.toDigitsCore] at h
  split at h
  · have ha : a < 10 := by omega
    interval_cases a <;> first | rfl | (revert h; decide)
  · obtain ⟨k, hk⟩ : ∃ k, a = k + 1 := ⟨a - 1, by omega⟩
    subst hk
    simp only [Nat.toDigitsCore] at h
    split at h
    · simp at h
    · have hlen2 := toDigitsCore_length_ge 10 k ((k + 1) / 10 / 10)
        [Nat.digitChar ((k + 1) / 10 % 10), Nat.digitChar ((k + 1) % 10)]
      rw [h] at hlen2
      simp at hlen2

/-- A number is rendered with at least one digit. -/
theorem toDigits_ne_nil (a : Nat) : Nat.toDigits 10 a ≠ [] := by
  unfold Nat.toDigits
  simp only [Nat.toDigitsCore]
  split
  · simp
  · intro h
    have hlen := toDigitsCore_length_ge 10 a (a / 10) [Nat.digitChar (a % 10)]
    rw [h] at hlen
    simp at hlen

/-- Fuel beyond the number of digits of the value in the given base changes
nothing: the loop of `removeFactors` has ended by then. -/
theorem removeFactors_fuel (base : Nat) (hb : 2 ≤ base) :
    ∀ (fuel x : Nat), x < base ^ fuel → ∀ extra : Nat,
      removeFactors base (fuel + extra) x = removeFactors base fuel x := by
  intro fuel
  induction fuel with
  | zero =>
    intro x hx extra
    have h0 : x = 0 := by simpa using hx
    subst h0
    cases extra with
    | zero => rfl
    | succ k =>
      have hlt : ¬ (0 ≥ base ∧ 0 % base = 0) := by
        intro hc
        have := hc.1
        omega
      simp only [Nat.zero_add, removeFactors, if_neg hlt]
  | succ fuel ih =>
    intro x hx extra
    have hrw : fuel + 1 + extra = (fuel + extra) + 1 := by omega
    rw [hrw]
    unfold removeFactors
    by_cases hc : x ≥ base ∧ x % base = 0
    · rw [if_pos hc, if_pos hc]
      have hdiv : x / base < base ^ fuel := by
        apply Nat.div_lt_of_lt_mul
        rw [Nat.pow_succ, Nat.mul_comm] at hx
        exact hx
      rw [ih (x / base) hdiv extra]
    · rw [if_neg hc, if_neg hc]

/-- The fuel of `quantityString` is enough for every `int64`. -/
theorem removeFactors_int64 (n : Int) (hlo : -(2 : Int) ^ 63 ≤ n) (hhi : n < (2 : Int) ^ 63)
    (extra : Nat) :
    removeFactors 10 (64 + extra) n.natAbs = removeFactors 10 64 n.natAbs ∧
    removeFactors 1024 (64 + extra) n.natAbs = removeFactors 1024 64 n.natAbs := by
  have habs : n.natAbs ≤ 2 ^ 63 := by omega
  have h10 : n.natAbs < 10 ^ 64 := Nat.lt_of_le_of_lt habs (by norm_num)
  have h1024 : n.natAbs < 1024 ^ 64 := Nat.lt_of_le_of_lt habs (by norm_num)
  exact ⟨removeFactors_fuel 10 (by decide) 64 _ h10 extra,
    removeFactors_fuel 1024 (by decide) 64 _ h1024 extra⟩

/-- Removing factors from a nonzero value leaves a nonzero value. -/
theorem removeFactors_ne_zero (base : Nat) :
    ∀ (fuel x : Nat), x ≠ 0 → (removeFactors base fuel x).1 ≠ 0 := by
  intro fuel
  induction fuel with
  | zero =>
    intro x hx
    simpa [removeFactors] using hx
  | succ fuel ih =>
    intro x hx
    unfold removeFactors
    split
    · rename_i hc
      apply ih
      have hb : 0 < base := by
        rcases Nat.eq_zero_or_pos base with h0 | h0
        · subst h0
          simp at hc
          exact absurd hc hx
        · exact h0
      exact Nat.pos_iff_ne_zero.mp (Nat.div_pos hc.1 hb)
    · exact hx

theorem repr_append_ne_zero (a : Nat) (suffix : String) (ha : a ≠ 0) :
    "" ++ Nat.repr a ++ suffix ≠ "0" := by
  intro h
  have hd := congrArg String.data h
  simp only [String.data_append, Nat.repr, List.asString] at hd
  have hd2 : Nat.toDigits 10 a ++ suffix.data = ['0'] := by
    simp at hd
    exact hd
  have hne := toDigits_ne_nil a
  cases hdig : Nat.toDigits 10 a with
  | nil => exact hne hdig
  | cons c rest =>
    rw [hdig] at hd2
    simp only [List.cons_append, List.cons.injEq, List.append_eq_nil] at hd2
    obtain ⟨hc, hrest, _⟩ := hd2
    rw [hc, hrest] at hdig
    exact ha (toDigits_eq_zero a hdig)

theorem minus_append_ne_zero (s t : String) : "-" ++ s ++ t ≠ "0" := by
  intro h
  have hd := congrArg String.data h
  simp only [String.data_append] at hd
  simp at hd

/-- A quantity is rendered as `0` exactly when it is zero. -/
theorem quantityString_eq_zero_iff (n : Int) : quantityString n = "0" ↔ n = 0 := by
  constructor
  · intro h
    by_contra hn
    have hnat : n.natAbs ≠ 0 := Int.natAbs_ne_zero.mpr hn
    unfold quantityString at h
    rw [if_neg hn] at h
    dsimp only at h
    by_cases hneg : n < 0
    · rw [if_pos hneg] at h
      split at h
      · exact minus_append_ne_zero _ _ h
      · exact minus_append_ne_zero _ _ h
    · rw [if_neg hneg] at h
      have hp10 := removeFactors_ne_zero 10 64 n.natAbs hnat
      have hp1024 := removeFactors_ne_zero 1024 64 n.natAbs hnat
      split at h
      · refine repr_append_ne_zero _ _ ?_ h
        split
        · exact Nat.mul_ne_zero hp10 (by decide)
        · split
          · exact Nat.mul_ne_zero hp10 (by decide)
          · exact hp10
      · exact repr_append_ne_zero _ _ hp1024 h
  · intro h
    subst h
    rfl

/-- The list handler leaves `limits` out for a memory limit of zero and renders
any other limit as its binary-SI quantity. -/
theorem listStatus_Limits (fn : Function) (replicaInfo : replicaFuncStatus) :
    (listStatus fn replicaInfo).Limits =
      if fn.memoryLimit = 0 then none else some ⟨quantityString fn.memoryLimit⟩ := by
  unfold listStatus
  dsimp only
  by_cases h : fn.memoryLimit = 0
  · rw [if_pos h, if_neg (by simp [(quantityString_eq_zero_iff fn.memoryLimit).mpr h])]
  · rw [if_neg h, if_pos (fun hq => h ((quantityString_eq_zero_iff fn.memoryLimit).mp hq))]

/-- The single-function read handler never sets `limits`. -/
theorem foundStatus_Limits (functionName : String) (f : Function)
    (replicaInfo : replicaFuncStatus) :
    (foundStatus functionName f replicaInfo).Limits = none := rfl

/-- No record that the single-function read handler writes has `limits`,
whatever the memory limit of the function. -/
theorem MakeReplicaReaderHandler_no_limits (env : Env) (r : Request) (found : FunctionStatus)
    (h : Chunk.function found ∈ (MakeReplicaReaderHandler env r).w.body) :
    found.Limits = none := by
  unfold MakeReplicaReaderHandler at h
  dsimp only at h
  cases hv : env.validNamespace (env.requestNamespace r) with
  | error e =>
    rw [hv] at h
    simp [ResponseWriter.Error, ResponseWriter.Write, ResponseWriter.WriteHeader,
      ResponseWriter.Set, ResponseWriter.new] at h
  | ok valid =>
    rw [hv] at h
    cases valid with
    | false =>
      simp [ResponseWriter.Error, ResponseWriter.Write, ResponseWriter.WriteHeader,
        ResponseWriter.Set, ResponseWriter.new] at h
    | true =>
      cases hg : env.GetFunction (env.muxVarsName r) (env.requestNamespace r) with
      | error e =>
        rw [hg] at h
        simp [ResponseWriter.WriteHeader, ResponseWriter.new] at h
      | ok f =>
        rw [hg] at h
        cases hu : (updateReplica env (env.muxVarsName r) r).function with
        | none =>
          simp [hu, ResponseWriter.new] at h
        | some replicaInfo =>
          simp [hu, ResponseWriter.Write, ResponseWriter.WriteHeader,
            ResponseWriter.Set, ResponseWriter.new] at h
          rw [h]
          rfl

/-- C6 fails on the code for the single-function read handler: for `figlet`,
whose memory limit is 67108864 bytes, the list handler returns an entry with
`limits.memory` equal to `64Mi`, and the single-function read handler returns
the record of the same function without `limits`. -/
theorem single_read_omits_memory_limit :
    healthyEnv.GetFunction "figlet" "openfaas-fn" = .ok (sampleFunction "figlet" 67108864) ∧
    (MakeReadHandler healthyEnv getRequest).w.status = some 200 ∧
    (MakeReadHandler healthyEnv getRequest).w.body =
      [.functions [listStatus (sampleFunction "figlet" 67108864) ⟨⟨0⟩, 1, 1⟩,
        listStatus (sampleFunction "nodeinfo" 0) ⟨⟨0⟩, 1, 1⟩,
        listStatus (sampleFunction "env" 0) ⟨⟨0⟩, 1, 1⟩]] ∧
    (listStatus (sampleFunction "figlet" 67108864) ⟨⟨0⟩, 1, 1⟩).Limits = some ⟨"64Mi"⟩ ∧
    (listStatus (sampleFunction "nodeinfo" 0) ⟨⟨0⟩, 1, 1⟩).Limits = none ∧
    (MakeReplicaReaderHandler healthyEnv getRequest).w.status = some 200 ∧
    (MakeReplicaReaderHandler healthyEnv getRequest).w.body =
      [.function (foundStatus "figlet" (sampleFunction "figlet" 67108864) ⟨⟨0⟩, 1, 1⟩)] ∧
    (foundStatus "figlet" (sampleFunction "figlet" 67108864) ⟨⟨0⟩, 1, 1⟩).Limits = none := by
  refine ⟨rfl, rfl, rfl, ?_, ?_, rfl, rfl, rfl⟩
  · decide
  · decide

/-- What does hold of the list handler: when the namespace is valid and every
function's replica record is at hand, the answer is 200 with one entry per
function. -/
theorem MakeReadHandler_all_replicas_read (env : Env) (r : Request)
    (fns : List (String × Function))
    (hv : env.validNamespace (env.requestNamespace r) = .ok true)
    (hl : env.ListFunctions (env.requestNamespace r) = .ok fns)
    (hall : ∀ p ∈ fns, (updateReplica env p.1 r).function ≠ none) :
    (MakeReadHandler env r).panicked = false ∧
    (MakeReadHandler env r).w.status = some 200 ∧
    ∃ res, (MakeReadHandler env r).w.body = [.functions res] ∧ res.length = fns.length ∧
      res.map (fun st => st.Name) = fns.map (fun p => p.2.name) := by
  obtain ⟨out, h1, h2, h3⟩ := readLoop_complete env r fns []
    [.validNamespace (env.requestNamespace r), .ListFunctions (env.requestNamespace r)] hall
  unfold MakeReadHandler
  simp only [hv, hl]
  cases hrl : readLoop env r fns []
    [.validNamespace (env.requestNamespace r), .ListFunctions (env.requestNamespace r)] with
  | mk a b =>
    rw [hrl] at h1
    simp only [List.nil_append] at h1
    subst h1
    exact ⟨rfl, rfl, out, rfl, h2, h3⟩

end Faasd
